import Mathlib

/-!
Shallow embedding of the InspireHEP MCP client core
(`src/inspirehep_mcp/api_client.py`) together with the TTL cache and error
taxonomy it uses.  Times, durations and the values carried by the
`Retry-After` header are modelled as rationals; the event loop is modelled
as an exact fake clock (sleeping for `d` advances the clock by exactly `d`,
and no time passes between adjacent non-suspending statements).  The parsed
JSON payload type is an arbitrary type parameter `α` (Python `dict`), since
the client never inspects it.
-/

namespace InspireMCP

/-- The typed error taxonomy of `errors.py`.
Modelled from the spec: the file `errors.py` is not in the sources, only
its import sites; section 4.4 of the spec gives each kind and the payload
it carries, and the constructor calls in `api_client.py` fix the field
names (`status_code`, `details`, `retry_after`, resource label and
identifier). -/
inductive InspireError where
  | apiError (message : String) (statusCode : Option Nat) (details : Option String)
  | notFoundError (resourceType : String) (identifier : String)
  | rateLimitError (retryAfter : Option Rat)
  | invalidIdentifierError (message : String)
deriving DecidableEq

/-- A Python exception that can escape from the request engine: either one
of the four taxonomy kinds, or a raw builtin exception (`ValueError` from
`float(...)`, `json.JSONDecodeError` from `response.json()`) that no
`except` clause in `api_client.py` catches. -/
inductive PyExc where
  | taxonomy (e : InspireError)
  | valueError (arg : String)
  | jsonDecodeError
deriving DecidableEq

/-- Is the exception one of the four taxonomy kinds? -/
def PyExc.isTaxonomy : PyExc → Bool
  | .taxonomy _ => true
  | _ => false

/-- A query-parameter value (`Any` in the Python signature; the call sites
in `api_client.py` pass strings and ints). -/
inductive ParamVal where
  | int (n : Int)
  | str (s : String)
deriving DecidableEq

/-- Rendering of a parameter value inside the cache key, standing for
Python `repr` as used by the f-string over the sorted item list. -/
def ParamVal.render : ParamVal → String
  | .int n => toString n
  | .str s => "str(" ++ s ++ ")"

/-- Rendering of one `(key, value)` item of the sorted parameter list. -/
def renderPair (p : String × ParamVal) : String :=
  "(" ++ p.1 ++ ", " ++ p.2.render ++ ")"

/-- Rendering of the whole sorted item list, standing for Python
`str(sorted(params.items()))`. -/
def renderParams (l : List (String × ParamVal)) : String :=
  "[" ++ String.intercalate ", " (l.map renderPair) ++ "]"

/-- `sorted(params.items())`: Python sorts the `(key, value)` tuples
lexicographically; because dict keys are unique the second components are
never compared, so sorting by key alone is the faithful model. -/
def sortedItems (l : List (String × ParamVal)) : List (String × ParamVal) :=
  l.insertionSort (fun a b => a.1 ≤ b.1)

/-- The cache key `f"{method}:{path}:{sorted((params or {}).items())}"`
built at `api_client.py:104` (and, with the literal method tag
`GET_TEXT`, at line 170). -/
def cacheKey (method path : String) (params : List (String × ParamVal)) : String :=
  method ++ ":" ++ path ++ ":" ++ renderParams (sortedItems params)

/-- `text[:500]`: Python slice truncation used for the `details` excerpt. -/
def truncate (s : String) (n : Nat) : String :=
  String.mk (s.data.take n)

/-- Model of the Python builtin `float` on header strings: an optional
sign, then digits with an optional single dot, as a rational; any other
shape fails (in Python: raises `ValueError`). -/
def natOfDigits (cs : List Char) : Nat :=
  cs.foldl (fun acc c => acc * 10 + (c.toNat - 48)) 0

/-- Parse a decimal string the way `float` accepts plain decimal literals:
returns `none` where `float` would raise `ValueError`. -/
def parseFloat (s : String) : Option Rat :=
  let afterSign : List Char :=
    match s.data with
    | '-' :: rest => rest
    | '+' :: rest => rest
    | l => l
  let negative : Bool :=
    match s.data with
    | '-' :: _ => true
    | _ => false
  let intPart := afterSign.takeWhile Char.isDigit
  let rest := afterSign.dropWhile Char.isDigit
  let magnitude : Option Rat :=
    match rest with
    | [] =>
        if intPart.isEmpty then none
        else some (natOfDigits intPart : Rat)
    | '.' :: frac =>
        if frac.all Char.isDigit ∧ ¬(intPart.isEmpty ∧ frac.isEmpty) then
          some ((natOfDigits intPart : Rat) +
            (natOfDigits frac : Rat) / ((10 : Rat) ^ frac.length))
        else none
    | _ => none
  match magnitude with
  | some m => some (if negative then -m else m)
  | none => none

/-- A cache entry `{ value, expires_at }`.
Modelled from the spec: `cache.py` is not in the sources; section 3 of the
spec gives the entry shape. -/
structure CacheEntry (V : Type) where
  value : V
  expiresAt : Rat
deriving DecidableEq

/-- The TTL cache.
Modelled from the spec: `cache.py` is not in the sources; sections 3 and
4.1 of the spec describe an ordered mapping (insertion order, oldest
first) bounded by `max_size`, with lazy per-read expiry. -/
structure TTLCache (V : Type) where
  ttlSeconds : Rat
  maxSize : Nat
  entries : List (String × CacheEntry V)
deriving DecidableEq

/-- `get(key)`: the cached value only if present and `now < expires_at`.
Modelled from the spec, section 4.1. -/
def TTLCache.get (c : TTLCache V) (now : Rat) (key : String) : Option V :=
  match c.entries.lookup key with
  | some e => if now < e.expiresAt then some e.value else none
  | none => none

/-- `set(key, value)`: insert or overwrite with
`expires_at = now + ttl_seconds`; overwriting keeps the insertion-order
position, and inserting a brand-new key past `max_size` evicts the
least-recently-inserted entries first.  Modelled from the spec,
section 4.1. -/
def TTLCache.set (c : TTLCache V) (now : Rat) (key : String) (v : V) : TTLCache V :=
  let e : CacheEntry V := ⟨v, now + c.ttlSeconds⟩
  if (c.entries.lookup key).isSome then
    { c with entries := c.entries.map (fun p => if p.1 = key then (key, e) else p) }
  else
    let kept :=
      if c.entries.length + 1 > c.maxSize then
        c.entries.drop (c.entries.length + 1 - c.maxSize)
      else c.entries
    { c with entries := kept ++ [(key, e)] }

/-- One underlying `httpx.AsyncClient` session: an identity (so that
recreation is observable) plus its closed flag. -/
structure Session where
  id : Nat
  isClosed : Bool
deriving DecidableEq

/-- The mutable state of one `InspireHEPClient` instance: rate-limiter
interval and timestamp, the shared TTL cache (holding parsed JSON data
from `_request` and raw text from `get_text`), and the lazily created
session.  `nextSessionId` feeds fresh session identities. -/
structure ClientState (α : Type) where
  rateInterval : Rat
  lastRequestTime : Rat
  cache : TTLCache (α ⊕ String)
  client : Option Session
  nextSessionId : Nat
deriving DecidableEq

/-- `InspireHEPClient.__init__`: `min_interval = 1 / requests_per_second`,
`last_request_time = 0.0`, an empty cache with the given TTL and bound,
and no session yet. -/
def ClientState.init (α : Type) (requestsPerSecond cacheTtl : Rat)
    (cacheMaxSize : Nat) : ClientState α :=
  { rateInterval := 1 / requestsPerSecond
    lastRequestTime := 0
    cache := ⟨cacheTtl, cacheMaxSize, []⟩
    client := none
    nextSessionId := 0 }

/-- Observable side effects of one call, in order: a rate-limit sleep of a
given duration, or the outgoing HTTP call on a given session. -/
inductive Effect where
  | rateSleep (duration : Rat)
  | networkCall (sessionId : Nat) (method : String) (path : String)
deriving DecidableEq

/-- Does the effect hit the network? -/
def Effect.isNetworkCall : Effect → Bool
  | .networkCall .. => true
  | _ => false

/-- `_wait_for_rate_limit` run atomically under `_rate_lock` on the fake
clock: returns the time at which the caller proceeds (the request start),
the updated state, and the sleep effect if any. -/
def waitForRateLimit (s : ClientState α) (now : Rat) :
    Rat × ClientState α × List Effect :=
  let elapsed := now - s.lastRequestTime
  if elapsed < s.rateInterval then
    let wake := now + (s.rateInterval - elapsed)
    (wake, { s with lastRequestTime := wake }, [.rateSleep (s.rateInterval - elapsed)])
  else
    (now, { s with lastRequestTime := now }, [])

/-- `_get_client`: reuse the session unless absent or closed, else create
a fresh open one. -/
def getClient (s : ClientState α) : Session × ClientState α :=
  match s.client with
  | some c =>
      if c.isClosed then
        (⟨s.nextSessionId, false⟩,
         { s with client := some ⟨s.nextSessionId, false⟩
                  nextSessionId := s.nextSessionId + 1 })
      else (c, s)
  | none =>
      (⟨s.nextSessionId, false⟩,
       { s with client := some ⟨s.nextSessionId, false⟩
                nextSessionId := s.nextSessionId + 1 })

/-- `close`: `aclose` the session only if it exists and is not already
closed; never raises. -/
def close (s : ClientState α) : ClientState α :=
  match s.client with
  | some c => if c.isClosed then s else { s with client := some ⟨c.id, true⟩ }
  | none => s

/-- What the transport (`httpx`) does for the one outgoing call of a
request: raise a timeout, raise another transport error, or deliver a
response.  `jsonBody = none` models a body on which `response.json()`
raises `json.JSONDecodeError`. -/
structure HttpResponse (α : Type) where
  statusCode : Nat
  retryAfter : Option String
  text : String
  jsonBody : Option α
deriving DecidableEq

inductive TransportResult (α : Type) where
  | timeout (msg : String)
  | httpError (msg : String)
  | ok (r : HttpResponse α)
deriving DecidableEq

/-- `float(retry_after) if retry_after else None` at `api_client.py:125`:
Python truthiness makes a missing or empty header yield `None`; a
non-empty header is fed to `float`, which raises `ValueError` on a
malformed value. -/
def parseRetryAfter (h : Option String) : Except PyExc (Option Rat) :=
  match h with
  | none => .ok none
  | some v =>
      if v = "" then .ok none
      else
        match parseFloat v with
        | some q => .ok (some q)
        | none => .error (.valueError v)

/-- The value a request evaluates to when no exception escapes: parsed
JSON data (`Sum.inl`) or raw text (`Sum.inr`).  Cache hits return whatever
was stored, as in the untyped Python code. -/
abbrev ReqValue (α : Type) := α ⊕ String

/-- `InspireHEPClient._request` (`api_client.py:94-143`) on the fake
clock, with the transport outcome supplied as an oracle: returns the
call outcome, the state afterwards, and the effect trace. -/
def request (method path : String) (params : List (String × ParamVal))
    (useCache : Bool) (s : ClientState α) (now : Rat)
    (transport : TransportResult α) :
    Except PyExc (ReqValue α) × ClientState α × List Effect :=
  let key := cacheKey method path params
  let hit : Option (ReqValue α) :=
    if useCache ∧ method = "GET" then s.cache.get now key else none
  match hit with
  | some v => (.ok v, s, [])
  | none =>
    let (start, s1, eff1) := waitForRateLimit s now
    let (sess, s2) := getClient s1
    let effs := eff1 ++ [.networkCall sess.id method path]
    match transport with
    | .timeout msg =>
        (.error (.taxonomy (.apiError "Request timed out" none (some msg))), s2, effs)
    | .httpError msg =>
        (.error (.taxonomy (.apiError "HTTP request failed" none (some msg))), s2, effs)
    | .ok r =>
        if r.statusCode = 429 then
          match parseRetryAfter r.retryAfter with
          | .ok ra => (.error (.taxonomy (.rateLimitError ra)), s2, effs)
          | .error e => (.error e, s2, effs)
        else if r.statusCode = 404 then
          (.error (.taxonomy (.notFoundError "resource" path)), s2, effs)
        else if r.statusCode ≥ 400 then
          (.error (.taxonomy (.apiError "API request failed" (some r.statusCode)
            (some (truncate r.text 500)))), s2, effs)
        else
          match r.jsonBody with
          | none => (.error .jsonDecodeError, s2, effs)
          | some d =>
              let s3 :=
                if useCache ∧ method = "GET" then
                  { s2 with cache := s2.cache.set start key (.inl d) }
                else s2
              (.ok (.inl d), s3, effs)

/-- `InspireHEPClient.get`: a cached GET through `_request`. -/
def get (path : String) (params : List (String × ParamVal)) (useCache : Bool)
    (s : ClientState α) (now : Rat) (transport : TransportResult α) :
    Except PyExc (ReqValue α) × ClientState α × List Effect :=
  request "GET" path params useCache s now transport

/-- `InspireHEPClient.get_text` (`api_client.py:159-198`): raw-text
flavor, keyed under the literal `GET_TEXT` tag, always cached on success,
with no 429 branch of its own. -/
def getText (path : String) (params : List (String × ParamVal))
    (s : ClientState α) (now : Rat) (transport : TransportResult α) :
    Except PyExc (ReqValue α) × ClientState α × List Effect :=
  let key := cacheKey "GET_TEXT" path params
  match s.cache.get now key with
  | some v => (.ok v, s, [])
  | none =>
    let (start, s1, eff1) := waitForRateLimit s now
    let (sess, s2) := getClient s1
    let effs := eff1 ++ [.networkCall sess.id "GET" path]
    match transport with
    | .timeout msg =>
        (.error (.taxonomy (.apiError "Request timed out" none (some msg))), s2, effs)
    | .httpError msg =>
        (.error (.taxonomy (.apiError "HTTP request failed" none (some msg))), s2, effs)
    | .ok r =>
        if r.statusCode = 404 then
          (.error (.taxonomy (.notFoundError "resource" path)), s2, effs)
        else if r.statusCode ≥ 400 then
          (.error (.taxonomy (.apiError "API request failed" (some r.statusCode)
            (some (truncate r.text 500)))), s2, effs)
        else
          (.ok (.inr r.text),
           { s2 with cache := s2.cache.set start key (.inr r.text) }, effs)

/-- Specification-level summary of the structured flavor's response
classification (`api_client.py:115-143`), as a function of the transport
outcome and the path alone: used to state that, with caching disabled, the
call result depends on nothing else. -/
def classifyStructured (path : String) (tr : TransportResult α) :
    Except PyExc (ReqValue α) :=
  match tr with
  | .timeout msg => .error (.taxonomy (.apiError "Request timed out" none (some msg)))
  | .httpError msg => .error (.taxonomy (.apiError "HTTP request failed" none (some msg)))
  | .ok r =>
      if r.statusCode = 429 then
        match parseRetryAfter r.retryAfter with
        | .ok ra => .error (.taxonomy (.rateLimitError ra))
        | .error e => .error e
      else if r.statusCode = 404 then .error (.taxonomy (.notFoundError "resource" path))
      else if r.statusCode ≥ 400 then
        .error (.taxonomy (.apiError "API request failed" (some r.statusCode)
          (some (truncate r.text 500))))
      else
        match r.jsonBody with
        | none => .error .jsonDecodeError
        | some d => .ok (.inl d)

/-- Successive passages through `_wait_for_rate_limit`: the lock lets one
caller at a time run the critical section, so a set of concurrent callers
is a sequence of entry times in lock-acquisition order; `limiterRun`
returns the corresponding request start times. -/
def limiterRun {α : Type} (s : ClientState α) : List Rat → List Rat × ClientState α
  | [] => ([], s)
  | t :: rest =>
      let r1 := waitForRateLimit s t
      let r2 := limiterRun r1.2.1 rest
      (r1.1 :: r2.1, r2.2)

/-- Insert each key of `ks` in order into the cache, all at the same
instant, with value `f k`: the scenario of the spec's eviction test. -/
def fillCache {V : Type} (c : TTLCache V) (now : Rat) (f : String → V)
    (ks : List String) : TTLCache V :=
  ks.foldl (fun acc k => acc.set now k (f k)) c

/-- Did the call raise `RateLimitError`? -/
def raisesRateLimit {V : Type} : Except PyExc V → Bool
  | .error (.taxonomy (.rateLimitError _)) => true
  | _ => false

/-- Did the call let a non-taxonomy (raw builtin) exception escape? -/
def escapesRaw {V : Type} : Except PyExc V → Bool
  | .error e => !e.isTaxonomy
  | _ => false

/-- A concrete client (JSON payloads instantiated at `Nat`) used by the
witness instantiations. -/
def exampleState : ClientState Nat := ClientState.init Nat 1 86400 512

/-- A concrete client whose cache already holds a live entry for
`GET /x` (written directly, expiring at time 10). -/
def examplePrimed : ClientState Nat :=
  { exampleState with cache := ⟨86400, 512, [(cacheKey "GET" "/x" [], ⟨.inl 9, 10⟩)]⟩ }

/-! ### Helper lemmas about the state transformers -/

theorem waitForRateLimit_state (s : ClientState α) (now : Rat) :
    (waitForRateLimit s now).2.1 = { s with lastRequestTime := (waitForRateLimit s now).1 } := by
  dsimp only [waitForRateLimit]
  split <;> rfl

theorem waitForRateLimit_cache (s : ClientState α) (now : Rat) :
    ((waitForRateLimit s now).2.1).cache = s.cache := by
  rw [waitForRateLimit_state]

theorem waitForRateLimit_start_ge (s : ClientState α) (now : Rat) :
    s.lastRequestTime + s.rateInterval ≤ (waitForRateLimit s now).1 := by
  dsimp only [waitForRateLimit]
  split
  · dsimp only
    linarith
  · rename_i h
    dsimp only
    linarith [not_lt.mp h]

theorem getClient_cache (s : ClientState α) : ((getClient s).2).cache = s.cache := by
  unfold getClient
  rcases s.client with _ | c
  · rfl
  · dsimp only
    split <;> rfl

theorem getClient_lastRequestTime (s : ClientState α) :
    ((getClient s).2).lastRequestTime = s.lastRequestTime := by
  unfold getClient
  rcases s.client with _ | c
  · rfl
  · dsimp only
    split <;> rfl

theorem lookup_map_update {V : Type} (l : List (String × CacheEntry V))
    (k : String) (e : CacheEntry V) (h : (l.lookup k).isSome) :
    (l.map (fun p => if p.1 = k then (k, e) else p)).lookup k = some e := by
  induction l with
  | nil => simp [List.lookup] at h
  | cons p rest ih =>
      simp only [List.map_cons]
      by_cases hk : p.1 = k
      · rw [if_pos hk]
        simp [List.lookup]
      · rw [if_neg hk]
        have hne : (k == p.1) = false :=
          beq_eq_false_iff_ne.mpr (fun he => hk he.symm)
        simp only [List.lookup, hne] at h
        simp only [List.lookup, hne]
        exact ih h

theorem lookup_append_of_none {V : Type} (l1 l2 : List (String × V))
    (k : String) (h : l1.lookup k = none) :
    (l1 ++ l2).lookup k = l2.lookup k := by
  induction l1 with
  | nil => rfl
  | cons p rest ih =>
      by_cases hk : (k == p.1)
      · simp [List.lookup, hk] at h
      · simp only [List.lookup, Bool.not_eq_true] at h
        rw [Bool.not_eq_true] at hk
        simp only [hk] at h
        simp only [List.cons_append, List.lookup, hk]
        exact ih h

theorem lookup_drop_of_none {V : Type} (l : List (String × V))
    (k : String) (n : Nat) (h : l.lookup k = none) :
    (l.drop n).lookup k = none := by
  induction l generalizing n with
  | nil => simp
  | cons p rest ih =>
      by_cases hk : (k == p.1)
      · simp [List.lookup, hk] at h
      · rw [Bool.not_eq_true] at hk
        simp only [List.lookup, hk] at h
        match n with
        | 0 =>
            simp only [List.drop, List.lookup, hk]
            exact h
        | n + 1 =>
            simp only [List.drop]
            exact ih n h

/-- Reading back the key just stored: present exactly while
`now2 < now + ttl`. -/
theorem TTLCache.get_set_self {V : Type} (c : TTLCache V) (now now2 : Rat)
    (k : String) (v : V) :
    (c.set now k v).get now2 k
      = if now2 < now + c.ttlSeconds then some v else none := by
  dsimp only [TTLCache.set]
  by_cases hs : (c.entries.lookup k).isSome
  · rw [if_pos hs]
    dsimp only [TTLCache.get]
    rw [lookup_map_update c.entries k _ hs]
  · rw [if_neg hs]
    have hnone : c.entries.lookup k = none := by
      rcases he : c.entries.lookup k with _ | e
      · rfl
      · rw [he] at hs; simp at hs
    dsimp only [TTLCache.get]
    by_cases hb : c.entries.length + 1 > c.maxSize
    · rw [if_pos hb,
        lookup_append_of_none _ _ _ (lookup_drop_of_none _ _ _ hnone)]
      simp [List.lookup]
    · rw [if_neg hb, lookup_append_of_none _ _ _ hnone]
      simp [List.lookup]

/-- A live cached entry short-circuits `_request` entirely. -/
theorem get_cache_hit {α : Type} (path : String)
    (params : List (String × ParamVal)) (s : ClientState α) (now : Rat)
    (tr : TransportResult α) (v : ReqValue α)
    (h : s.cache.get now (cacheKey "GET" path params) = some v) :
    get path params true s now tr = (.ok v, s, []) := by
  dsimp only [get, request]
  rw [if_pos ⟨rfl, rfl⟩, h]

/-- Claim C9: for every upstream response with status ≥ 400 other than 404
(and, in the structured flavor, other than 429), the call raises `APIError`
carrying the status code and a body excerpt truncated to at most 500
characters. -/
theorem other_4xx_raises_apiError {α : Type} (method path : String)
    (params : List (String × ParamVal)) (useCache : Bool) (s : ClientState α)
    (now : Rat) (r : HttpResponse α)
    (hge : 400 ≤ r.statusCode) (h404 : r.statusCode ≠ 404) :
    (s.cache.get now (cacheKey method path params) = none →
      r.statusCode ≠ 429 →
      (request method path params useCache s now (.ok r)).1
        = .error (.taxonomy (.apiError "API request failed" (some r.statusCode)
            (some (truncate r.text 500))))) ∧
    (s.cache.get now (cacheKey "GET_TEXT" path params) = none →
      (getText path params s now (.ok r)).1
        = .error (.taxonomy (.apiError "API request failed" (some r.statusCode)
            (some (truncate r.text 500))))) ∧
    (truncate r.text 500).length ≤ 500 := by
  refine ⟨?_, ?_, ?_⟩
  · intro hmiss h429
    dsimp only [request]
    have hhit : (if useCache = true ∧ method = "GET"
        then s.cache.get now (cacheKey method path params) else none) = none := by
      by_cases hc : useCache = true ∧ method = "GET"
      · rw [if_pos hc, hmiss]
      · rw [if_neg hc]
    rw [hhit]
    dsimp only
    rw [if_neg h429, if_neg h404, if_pos hge]
  · intro hmiss
    dsimp only [getText]
    rw [hmiss]
    dsimp only
    rw [if_neg h404, if_pos hge]
  · show (String.mk (r.text.data.take 500)).length ≤ 500
    have h : (r.text.data.take 500).length = min 500 r.text.data.length :=
      List.length_take _ _
    calc (String.mk (r.text.data.take 500)).length
        = (r.text.data.take 500).length := rfl
      _ ≤ 500 := by rw [h]; exact min_le_left _ _

/-- Witness for C9 at a concrete mocked 500 response. -/
theorem other_4xx_raises_apiError_witness :
    (request "GET" "/x" [] true exampleState 0
        (.ok ⟨500, none, "boom", (none : Option Nat)⟩)).1
      = .error (.taxonomy (.apiError "API request failed" (some 500) (some "boom"))) := by
  exact (other_4xx_raises_apiError "GET" "/x" [] true exampleState 0
    ⟨500, none, "boom", none⟩ (by decide) (by decide)).1 rfl (by decide)

/-- Claim C10: with `use_cache = false`, `get` neither reads nor writes the
cache: its outcome is a function of the transport result and path alone,
exactly one network call is made, and the cache afterwards is the cache
before. -/
theorem cache_disabled_bypasses_cache {α : Type} (path : String)
    (params : List (String × ParamVal)) (s : ClientState α) (now : Rat)
    (tr : TransportResult α) :
    (get path params false s now tr).1 = classifyStructured path tr ∧
    ((get path params false s now tr).2.1).cache = s.cache ∧
    ((get path params false s now tr).2.2).countP Effect.isNetworkCall = 1 := by
  have hc2 : ((getClient (waitForRateLimit s now).2.1).2).cache = s.cache :=
    (getClient_cache _).trans (waitForRateLimit_cache s now)
  dsimp only [get, request, classifyStructured]
  rw [if_neg (by simp : ¬(false = true ∧ "GET" = "GET"))]
  rcases tr with msg | msg | r
  · refine ⟨rfl, ?_, ?_⟩
    · exact hc2
    · dsimp only [waitForRateLimit]
      split <;> rfl
  · refine ⟨rfl, ?_, ?_⟩
    · exact hc2
    · dsimp only [waitForRateLimit]
      split <;> rfl
  · dsimp only
    have heff : ((waitForRateLimit s now).2.2 ++
        [Effect.networkCall (getClient (waitForRateLimit s now).2.1).1.id "GET" path]).countP
          Effect.isNetworkCall = 1 := by
      dsimp only [waitForRateLimit]
      split <;> rfl
    by_cases h429 : r.statusCode = 429
    · rw [if_pos h429, if_pos h429]
      rcases hra : parseRetryAfter r.retryAfter with ra | e <;>
        exact ⟨rfl, hc2, heff⟩
    · rw [if_neg h429, if_neg h429]
      by_cases h404 : r.statusCode = 404
      · rw [if_pos h404, if_pos h404]
        exact ⟨rfl, hc2, heff⟩
      · rw [if_neg h404, if_neg h404]
        by_cases hge : r.statusCode ≥ 400
        · rw [if_pos hge, if_pos hge]
          exact ⟨rfl, hc2, heff⟩
        · rw [if_neg hge, if_neg hge]
          rcases r.jsonBody with _ | d
          · exact ⟨rfl, hc2, heff⟩
          · dsimp only
            rw [if_neg (by simp : ¬(false = true ∧ "GET" = "GET"))]
            exact ⟨rfl, hc2, heff⟩

/-- Claim C6: on HTTP success the text flavor always stores the response
body in the cache, while the structured flavor stores the parsed body only
when the method is GET (a non-GET method never touches the cache). -/
theorem text_flavor_always_caches {α : Type} (method path : String)
    (params : List (String × ParamVal)) (useCache : Bool) (s : ClientState α)
    (now : Rat) (r : HttpResponse α) (tr : TransportResult α)
    (hok : r.statusCode < 400) :
    (s.cache.get now (cacheKey "GET_TEXT" path params) = none →
      ((getText path params s now (.ok r)).2.1).cache
        = s.cache.set (waitForRateLimit s now).1
            (cacheKey "GET_TEXT" path params) (.inr r.text)) ∧
    (method ≠ "GET" →
      ((request method path params useCache s now tr).2.1).cache = s.cache) := by
  have hc2 : ((getClient (waitForRateLimit s now).2.1).2).cache = s.cache :=
    (getClient_cache _).trans (waitForRateLimit_cache s now)
  constructor
  · intro hmiss
    dsimp only [getText]
    rw [hmiss]
    dsimp only
    rw [if_neg (by omega : ¬r.statusCode = 404), if_neg (by omega : ¬r.statusCode ≥ 400)]
    dsimp only
    rw [hc2]
  · intro hm
    dsimp only [request]
    have hcond : ¬(useCache = true ∧ method = "GET") := fun h => hm h.2
    rw [if_neg hcond]
    dsimp only
    rcases tr with msg | msg | r2
    · exact hc2
    · exact hc2
    · dsimp only
      by_cases h429 : r2.statusCode = 429
      · rw [if_pos h429]
        rcases parseRetryAfter r2.retryAfter with ra | e
        · exact hc2
        · exact hc2
      · rw [if_neg h429]
        by_cases h404 : r2.statusCode = 404
        · rw [if_pos h404]
          exact hc2
        · rw [if_neg h404]
          by_cases hge : r2.statusCode ≥ 400
          · rw [if_pos hge]
            exact hc2
          · rw [if_neg hge]
            rcases r2.jsonBody with _ | d
            · exact hc2
            · dsimp only
              rw [if_neg hcond]
              exact hc2

/-- Witness for C6: a 200 text response gets stored; a POST through the
structured flavor leaves the cache unchanged. -/
theorem text_flavor_always_caches_witness :
    (((getText "/x" [] exampleState 0
          (.ok (⟨200, none, "body", none⟩ : HttpResponse Nat))).2.1).cache
        = exampleState.cache.set (waitForRateLimit exampleState 0).1
            (cacheKey "GET_TEXT" "/x" []) (.inr "body")) ∧
    (((request "POST" "/x" [] true exampleState 0
          (.ok (⟨200, none, "body", some 3⟩ : HttpResponse Nat))).2.1).cache
        = exampleState.cache) := by
  constructor
  · exact (text_flavor_always_caches "POST" "/x" [] true exampleState 0
      ⟨200, none, "body", none⟩ (.ok ⟨200, none, "body", some 3⟩) (by decide)).1 rfl
  · exact (text_flavor_always_caches "POST" "/x" [] true exampleState 0
      ⟨200, none, "body", none⟩ (.ok ⟨200, none, "body", some 3⟩) (by decide)).2
      (by decide)

/-- Claim C4: a live cache entry makes `get` return it with no rate-limit
wait and no network call (state untouched, empty effect trace); and after a
successful first GET the transport is hit exactly once, a second identical
call within the TTL window returning the stored object with no effects at
all. -/
theorem cache_hit_no_network {α : Type} (path : String)
    (params : List (String × ParamVal)) :
    (∀ (s : ClientState α) (now : Rat) (tr : TransportResult α) (v : ReqValue α),
      s.cache.get now (cacheKey "GET" path params) = some v →
      get path params true s now tr = (.ok v, s, [])) ∧
    (∀ (s : ClientState α) (now now2 : Rat) (tr2 : TransportResult α)
        (r : HttpResponse α) (d : α),
      s.cache.get now (cacheKey "GET" path params) = none →
      r.statusCode < 400 → r.jsonBody = some d →
      now2 < (waitForRateLimit s now).1 + s.cache.ttlSeconds →
      ((get path params true s now (.ok r)).2.2).countP Effect.isNetworkCall = 1 ∧
      get path params true ((get path params true s now (.ok r)).2.1) now2 tr2
        = (.ok (.inl d), (get path params true s now (.ok r)).2.1, [])) := by
  constructor
  · intro s now tr v h
    exact get_cache_hit path params s now tr v h
  · intro s now now2 tr2 r d hmiss hok hjson hwin
    have hc2 : ((getClient (waitForRateLimit s now).2.1).2).cache = s.cache :=
      (getClient_cache _).trans (waitForRateLimit_cache s now)
    have hfirst : get path params true s now (.ok r)
        = (.ok (.inl d),
           { (getClient (waitForRateLimit s now).2.1).2 with
             cache := ((getClient (waitForRateLimit s now).2.1).2).cache.set
               (waitForRateLimit s now).1 (cacheKey "GET" path params) (.inl d) },
           (waitForRateLimit s now).2.2
             ++ [.networkCall (getClient (waitForRateLimit s now).2.1).1.id "GET" path]) := by
      dsimp only [get, request]
      rw [if_pos ⟨rfl, rfl⟩, hmiss]
      dsimp only
      rw [if_neg (by omega : ¬r.statusCode = 429),
        if_neg (by omega : ¬r.statusCode = 404),
        if_neg (by omega : ¬r.statusCode ≥ 400), hjson]
      dsimp only
      rw [if_pos ⟨rfl, rfl⟩]
    constructor
    · rw [hfirst]
      dsimp only
      rw [List.countP_append]
      have h0 : ((waitForRateLimit s now).2.2).countP Effect.isNetworkCall = 0 := by
        dsimp only [waitForRateLimit]
        split <;> rfl
      rw [h0]
      rfl
    · apply get_cache_hit
      rw [hfirst]
      dsimp only
      rw [hc2, TTLCache.get_set_self]
      rw [if_pos ?_]
      exact hwin

/-- Witness for C4: a primed cache answers from the cache even against a
timing-out transport; a fresh client populates the cache on the first call
and serves the second from it. -/
theorem cache_hit_no_network_witness :
    (get "/x" [] true examplePrimed 3 (.timeout "t") = (.ok (.inl 9), examplePrimed, [])) ∧
    ((get "/x" [] true
        ((get "/x" [] true exampleState 0 (.ok ⟨200, none, "body", some 7⟩)).2.1) 5
        (.timeout "t"))
      = (.ok (.inl 7),
         (get "/x" [] true exampleState 0 (.ok ⟨200, none, "body", some 7⟩)).2.1, [])) := by
  constructor
  · exact (cache_hit_no_network "/x" []).1 examplePrimed 3 (.timeout "t") (.inl 9) rfl
  · exact ((cache_hit_no_network "/x" []).2 exampleState 0 5 (.timeout "t")
      ⟨200, none, "body", some 7⟩ 7 rfl (by decide) rfl
      (by norm_num [waitForRateLimit, exampleState, ClientState.init])).2

theorem close_client_closed {α : Type} (s : ClientState α) (c : Session)
    (h : (close s).client = some c) : c.isClosed = true := by
  dsimp only [close] at h
  rcases hs : s.client with _ | c0
  all_goals rw [hs] at h
  · dsimp only at h
    rw [hs] at h
    exact absurd h (by simp)
  · dsimp only at h
    by_cases hc : c0.isClosed = true
    · rw [if_pos hc, hs] at h
      injection h with he
      rw [← he]
      exact hc
    · rw [if_neg hc] at h
      dsimp only at h
      injection h with he
      rw [← he]

theorem close_cache {α : Type} (s : ClientState α) : (close s).cache = s.cache := by
  dsimp only [close]
  rcases s.client with _ | c
  · rfl
  · dsimp only
    split <;> rfl

theorem close_nextSessionId {α : Type} (s : ClientState α) :
    (close s).nextSessionId = s.nextSessionId := by
  dsimp only [close]
  rcases s.client with _ | c
  · rfl
  · dsimp only
    split <;> rfl

theorem getClient_of_closed {α : Type} (s : ClientState α)
    (h : ∀ c, s.client = some c → c.isClosed = true) :
    getClient s = (⟨s.nextSessionId, false⟩,
      { s with client := some ⟨s.nextSessionId, false⟩
               nextSessionId := s.nextSessionId + 1 }) := by
  dsimp only [getClient]
  rcases hs : s.client with _ | c
  · rfl
  · dsimp only
    rw [if_pos (h c hs)]

/-- The full success path of a cached GET on a cache miss: the parsed body
is returned, stored in the cache at the post-wait clock, and exactly one
network call is traced. -/
theorem get_success_result {α : Type} (path : String)
    (params : List (String × ParamVal)) (s : ClientState α) (now : Rat)
    (r : HttpResponse α) (d : α)
    (hmiss : s.cache.get now (cacheKey "GET" path params) = none)
    (hok : r.statusCode < 400) (hjson : r.jsonBody = some d) :
    get path params true s now (.ok r)
      = (.ok (.inl d),
         { (getClient (waitForRateLimit s now).2.1).2 with
           cache := ((getClient (waitForRateLimit s now).2.1).2).cache.set
             (waitForRateLimit s now).1 (cacheKey "GET" path params) (.inl d) },
         (waitForRateLimit s now).2.2
           ++ [.networkCall (getClient (waitForRateLimit s now).2.1).1.id "GET" path]) := by
  dsimp only [get, request]
  rw [if_pos ⟨rfl, rfl⟩, hmiss]
  dsimp only
  rw [if_neg (by omega : ¬r.statusCode = 429),
    if_neg (by omega : ¬r.statusCode = 404),
    if_neg (by omega : ¬r.statusCode ≥ 400), hjson]
  dsimp only
  rw [if_pos ⟨rfl, rfl⟩]

/-- Claim C7: `close` is idempotent and a no-op on a never-opened session,
never raises (it is a total function of the state), and after `close` a
request transparently recreates the session and succeeds. -/
theorem close_idempotent_session_recreated {α : Type} (path : String)
    (params : List (String × ParamVal)) (s : ClientState α) (now : Rat)
    (r : HttpResponse α) (d : α) :
    close (close s) = close s ∧
    (s.client = none → close s = s) ∧
    (getClient (close s)).1.isClosed = false ∧
    (s.cache.get now (cacheKey "GET" path params) = none →
      r.statusCode < 400 → r.jsonBody = some d →
      (get path params true (close s) now (.ok r)).1 = .ok (.inl d) ∧
      ((get path params true (close s) now (.ok r)).2.1).client
          = some ⟨s.nextSessionId, false⟩) := by
  have hclosed : ∀ c, (close s).client = some c → c.isClosed = true :=
    fun c h => close_client_closed s c h
  refine ⟨?_, ?_, ?_, ?_⟩
  · dsimp only [close]
    rcases hs : s.client with _ | c
    · rw [hs]
    · dsimp only
      by_cases hc : c.isClosed = true
      · rw [if_pos hc, hs]
        dsimp only
        rw [if_pos hc]
      · rw [if_neg hc]
        dsimp only
        rw [if_pos rfl]
  · intro h
    dsimp only [close]
    rw [h]
  · rw [getClient_of_closed (close s) hclosed]
  · intro hmiss hok hjson
    have hmiss2 : (close s).cache.get now (cacheKey "GET" path params) = none := by
      rw [close_cache]
      exact hmiss
    rw [get_success_result path params (close s) now r d hmiss2 hok hjson]
    refine ⟨rfl, ?_⟩
    dsimp only
    have hwclosed : ∀ c, ((waitForRateLimit (close s) now).2.1).client = some c →
        c.isClosed = true := by
      intro c h
      rw [waitForRateLimit_state] at h
      exact hclosed c h
    have hwid : ((waitForRateLimit (close s) now).2.1).nextSessionId = s.nextSessionId := by
      rw [waitForRateLimit_state]
      exact close_nextSessionId s
    rw [getClient_of_closed _ hwclosed]
    dsimp only
    rw [hwid]

/-- Witness for C7: closing a never-opened client and requesting through it
succeeds and installs a fresh open session. -/
theorem close_idempotent_session_recreated_witness :
    (get "/x" [] true (close exampleState) 0
        (.ok (⟨200, none, "body", some 7⟩ : HttpResponse Nat))).1 = .ok (.inl 7) ∧
    ((get "/x" [] true (close exampleState) 0
        (.ok (⟨200, none, "body", some 7⟩ : HttpResponse Nat))).2.1).client
      = some ⟨0, false⟩ := by
  exact (close_idempotent_session_recreated "/x" [] exampleState 0
    ⟨200, none, "body", some 7⟩ 7).2.2.2 rfl (by decide) rfl

/-- Counterexample to claim C2 as stated: in the text flavor a mocked 429
with `Retry-After: 5` raises `APIError` (status 429), not
`RateLimitError` — `get_text` has no 429 branch. -/
theorem get_text_429_not_rateLimitError :
    (getText "/x" [] exampleState 0
        (.ok (⟨429, some "5", "slow", none⟩ : HttpResponse Nat))).1
      = .error (.taxonomy (.apiError "API request failed" (some 429) (some "slow"))) ∧
    raisesRateLimit (getText "/x" [] exampleState 0
        (.ok (⟨429, some "5", "slow", none⟩ : HttpResponse Nat))).1 = false := by
  exact ⟨rfl, rfl⟩

/-- Claim C2 as amended: only the structured flavor maps HTTP 429 to
`RateLimitError`, carrying the float-parsed `Retry-After` when the header
is present, non-empty and numeric, and no retry-after value when it is
absent or empty (a malformed non-empty value raises `ValueError` instead);
the text flavor classifies 429 as `APIError` with status code 429. -/
theorem http_429_classification {α : Type} (path : String)
    (params : List (String × ParamVal)) (useCache : Bool) (method : String)
    (s : ClientState α) (now : Rat) (r : HttpResponse α)
    (h429 : r.statusCode = 429) :
    (s.cache.get now (cacheKey method path params) = none →
      ((r.retryAfter = none ∨ r.retryAfter = some "" →
        (request method path params useCache s now (.ok r)).1
          = .error (.taxonomy (.rateLimitError none))) ∧
       (∀ v q, r.retryAfter = some v → ¬v = "" → parseFloat v = some q →
        (request method path params useCache s now (.ok r)).1
          = .error (.taxonomy (.rateLimitError (some q)))) ∧
       (∀ v, r.retryAfter = some v → ¬v = "" → parseFloat v = none →
        (request method path params useCache s now (.ok r)).1
          = .error (.valueError v)))) ∧
    (s.cache.get now (cacheKey "GET_TEXT" path params) = none →
      (getText path params s now (.ok r)).1
        = .error (.taxonomy (.apiError "API request failed" (some r.statusCode)
            (some (truncate r.text 500))))) := by
  constructor
  · intro hmiss
    have hhit : (if useCache = true ∧ method = "GET"
        then s.cache.get now (cacheKey method path params) else none) = none := by
      by_cases hc : useCache = true ∧ method = "GET"
      · rw [if_pos hc, hmiss]
      · rw [if_neg hc]
    refine ⟨?_, ?_, ?_⟩
    · intro hra
      dsimp only [request]
      rw [hhit]
      dsimp only
      rw [if_pos h429]
      rcases hra with hra | hra <;> rw [hra] <;> rfl
    · intro v q hv hne hq
      dsimp only [request]
      rw [hhit]
      dsimp only
      rw [if_pos h429, hv]
      dsimp only [parseRetryAfter]
      rw [if_neg hne, hq]
    · intro v hv hne hq
      dsimp only [request]
      rw [hhit]
      dsimp only
      rw [if_pos h429, hv]
      dsimp only [parseRetryAfter]
      rw [if_neg hne, hq]
  · intro hmiss
    dsimp only [getText]
    rw [hmiss]
    dsimp only
    rw [if_neg (by omega : ¬r.statusCode = 404), if_pos (by omega : r.statusCode ≥ 400)]

/-- Witness for the amended C2 at a concrete 429 with `Retry-After: 5`
through the structured flavor, and the same response through the text
flavor. -/
theorem http_429_classification_witness :
    (request "GET" "/x" [] true exampleState 0
        (.ok (⟨429, some "5", "slow", none⟩ : HttpResponse Nat))).1
      = .error (.taxonomy (.rateLimitError (some 5))) ∧
    (getText "/x" [] exampleState 0
        (.ok (⟨429, some "5", "slow", none⟩ : HttpResponse Nat))).1
      = .error (.taxonomy (.apiError "API request failed" (some 429)
          (some (truncate "slow" 500)))) := by
  constructor
  · exact ((http_429_classification "/x" [] true "GET" exampleState 0
      ⟨429, some "5", "slow", none⟩ rfl).1 rfl).2.1 "5" 5 rfl (by decide) rfl
  · exact (http_429_classification "/x" [] true "GET" exampleState 0
      ⟨429, some "5", "slow", none⟩ rfl).2 rfl

theorem parseRetryAfter_error (h : Option String) (e : PyExc)
    (he : parseRetryAfter h = .error e) :
    ∃ v, h = some v ∧ ¬(v = "") ∧ parseFloat v = none ∧ e = .valueError v := by
  rcases h with _ | v
  · exact absurd he (by simp [parseRetryAfter])
  · dsimp only [parseRetryAfter] at he
    by_cases hv : v = ""
    · rw [if_pos hv] at he
      exact absurd he (by simp)
    · rw [if_neg hv] at he
      rcases hp : parseFloat v with _ | q
      · rw [hp] at he
        injection he with he2
        exact ⟨v, rfl, hv, hp, he2.symm⟩
      · rw [hp] at he
        exact absurd he (by simp)

/-- Counterexample to claim C1 as stated: a 2xx response whose body is not
valid JSON makes the structured flavor let `json.JSONDecodeError` escape
raw — it is raised by `response.json()` outside the `except` clauses, and
is none of the four taxonomy kinds. -/
theorem json_decode_error_escapes :
    escapesRaw (get "/x" [] true exampleState 0
        (.ok (⟨200, none, "not json", none⟩ : HttpResponse Nat))).1 = true ∧
    (get "/x" [] true exampleState 0
        (.ok (⟨200, none, "not json", none⟩ : HttpResponse Nat))).1
      = .error .jsonDecodeError := ⟨rfl, rfl⟩

/-- Claim C1 as amended: every exception escaping either flavor is one of
the four taxonomy kinds, except that the structured flavor lets
`json.JSONDecodeError` escape on a sub-400 response with an unparseable
body and lets `float`'s `ValueError` escape on a 429 with a malformed
non-empty `Retry-After`; the text flavor only ever raises taxonomy kinds,
and transport failures (timeout or other transport error) are always
re-wrapped as `APIError`, never passed through raw. -/
theorem errors_taxonomy_amended {α : Type} (method path : String)
    (params : List (String × ParamVal)) (useCache : Bool) (s : ClientState α)
    (now : Rat) (tr : TransportResult α) (e : PyExc) :
    ((request method path params useCache s now tr).1 = .error e →
      e.isTaxonomy = true ∨
      (e = .jsonDecodeError ∧ ∃ r, tr = .ok r ∧ r.statusCode < 400 ∧ r.jsonBody = none) ∨
      (∃ v, e = .valueError v ∧ ∃ r, tr = .ok r ∧ r.statusCode = 429 ∧
        r.retryAfter = some v ∧ parseFloat v = none)) ∧
    ((getText path params s now tr).1 = .error e → e.isTaxonomy = true) ∧
    (∀ msg, tr = .timeout msg →
      s.cache.get now (cacheKey method path params) = none →
      (request method path params useCache s now tr).1
        = .error (.taxonomy (.apiError "Request timed out" none (some msg)))) ∧
    (∀ msg, tr = .httpError msg →
      s.cache.get now (cacheKey method path params) = none →
      (request method path params useCache s now tr).1
        = .error (.taxonomy (.apiError "HTTP request failed" none (some msg)))) := by
  have hhitnone : ∀ (h2 : s.cache.get now (cacheKey method path params) = none),
      (if useCache = true ∧ method = "GET"
        then s.cache.get now (cacheKey method path params) else none) = none := by
    intro h2
    by_cases hc : useCache = true ∧ method = "GET"
    · rw [if_pos hc, h2]
    · rw [if_neg hc]
  refine ⟨?_, ?_, ?_, ?_⟩
  · intro h
    dsimp only [request] at h
    rcases hhit : (if useCache = true ∧ method = "GET"
        then s.cache.get now (cacheKey method path params) else none) with _ | v
    all_goals rw [hhit] at h
    pick_goal 2
    · dsimp only at h
      exact absurd h (by simp)
    dsimp only at h
    rcases tr with msg | msg | r
    · injection h with h2
      rw [← h2]
      exact Or.inl rfl
    · injection h with h2
      rw [← h2]
      exact Or.inl rfl
    · dsimp only at h
      by_cases h429 : r.statusCode = 429
      · rw [if_pos h429] at h
        rcases hpr : parseRetryAfter r.retryAfter with e2 | ra
        all_goals rw [hpr] at h
        · injection h with h2
          obtain ⟨v, hv, hne, hpf, he2⟩ := parseRetryAfter_error r.retryAfter e2 hpr
          refine Or.inr (Or.inr ⟨v, ?_, r, rfl, h429, hv, hpf⟩)
          rw [← h2, he2]
        · injection h with h2
          rw [← h2]
          exact Or.inl rfl
      · rw [if_neg h429] at h
        by_cases h404 : r.statusCode = 404
        · rw [if_pos h404] at h
          injection h with h2
          rw [← h2]
          exact Or.inl rfl
        · rw [if_neg h404] at h
          by_cases hge : r.statusCode ≥ 400
          · rw [if_pos hge] at h
            injection h with h2
            rw [← h2]
            exact Or.inl rfl
          · rw [if_neg hge] at h
            rcases hjson : r.jsonBody with _ | d
            all_goals rw [hjson] at h
            · dsimp only at h
              injection h with h2
              refine Or.inr (Or.inl ⟨h2.symm, r, rfl, by omega, hjson⟩)
            · dsimp only at h
              exact absurd h (by simp)
  · intro h
    dsimp only [getText] at h
    rcases hhit : s.cache.get now (cacheKey "GET_TEXT" path params) with _ | v
    all_goals rw [hhit] at h
    pick_goal 2
    · dsimp only at h
      exact absurd h (by simp)
    dsimp only at h
    rcases tr with msg | msg | r
    · injection h with h2
      rw [← h2]
      exact rfl
    · injection h with h2
      rw [← h2]
      exact rfl
    · dsimp only at h
      by_cases h404 : r.statusCode = 404
      · rw [if_pos h404] at h
        injection h with h2
        rw [← h2]
        exact rfl
      · rw [if_neg h404] at h
        by_cases hge : r.statusCode ≥ 400
        · rw [if_pos hge] at h
          injection h with h2
          rw [← h2]
          exact rfl
        · rw [if_neg hge] at h
          dsimp only at h
          exact absurd h (by simp)
  · intro msg htr hmiss
    rw [htr]
    dsimp only [request]
    rw [hhitnone hmiss]
  · intro msg htr hmiss
    rw [htr]
    dsimp only [request]
    rw [hhitnone hmiss]

/-- Witness for the amended C1: a timed-out transport surfaces as a
re-wrapped `APIError`. -/
theorem errors_taxonomy_amended_witness :
    (request "GET" "/x" [] true exampleState 0
        (.timeout "t" : TransportResult Nat)).1
      = .error (.taxonomy (.apiError "Request timed out" none (some "t"))) := by
  exact (errors_taxonomy_amended "GET" "/x" [] true exampleState 0 (.timeout "t")
    (.taxonomy (.apiError "Request timed out" none (some "t")))).2.2.1 "t" rfl rfl

/-- Sorting by key sends any two reorderings of a duplicate-free parameter
set to the same list (keys are dict keys, hence distinct, so values are
never compared). -/
theorem sortedItems_perm_eq (p1 p2 : List (String × ParamVal))
    (hperm : p1.Perm p2) (hnodup : (p1.map Prod.fst).Nodup) :
    sortedItems p1 = sortedItems p2 := by
  haveI ht : IsTotal (String × ParamVal) (fun a b => a.1 ≤ b.1) :=
    ⟨fun a b => le_total a.1 b.1⟩
  haveI htr : IsTrans (String × ParamVal) (fun a b => a.1 ≤ b.1) :=
    ⟨fun a b c h1 h2 => le_trans h1 h2⟩
  haveI ha : IsAntisymm (String × ParamVal) (fun a b => a.1 < b.1) :=
    ⟨fun a b h1 h2 => absurd (lt_trans h1 h2) (lt_irrefl _)⟩
  have hs1 := List.sorted_insertionSort (fun a b => a.1 ≤ b.1) p1
  have hs2 := List.sorted_insertionSort (fun a b => a.1 ≤ b.1) p2
  have hp1 := List.perm_insertionSort (fun a b => a.1 ≤ b.1) p1
  have hp2 := List.perm_insertionSort (fun a b => a.1 ≤ b.1) p2
  have hperm12 : (sortedItems p1).Perm (sortedItems p2) :=
    (hp1.trans hperm).trans hp2.symm
  have hnd1 : ((sortedItems p1).map Prod.fst).Nodup :=
    (hp1.map Prod.fst).nodup_iff.mpr hnodup
  have hnd2 : ((sortedItems p2).map Prod.fst).Nodup :=
    ((hperm12.map Prod.fst).nodup_iff).mp hnd1
  have hstrict : ∀ (l : List (String × ParamVal)),
      l.Sorted (fun a b => a.1 ≤ b.1) → (l.map Prod.fst).Nodup →
      l.Sorted (fun a b => a.1 < b.1) := by
    intro l hle hnd
    have hne : l.Pairwise (fun a b => a.1 ≠ b.1) := List.pairwise_map.mp hnd
    exact (hle.and hne).imp (fun h => lt_of_le_of_ne h.1 h.2)
  exact List.eq_of_perm_of_sorted hperm12
    (hstrict _ hs1 hnd1) (hstrict _ hs2 hnd2)

/-- Claim C5: the cache key is invariant under reordering of the parameter
pairs (dict keys being unique, value ordering never enters), so both
orderings address the same cache entry. -/
theorem cacheKey_param_order_irrelevant (method path : String)
    (p1 p2 : List (String × ParamVal))
    (hperm : p1.Perm p2) (hnodup : (p1.map Prod.fst).Nodup) :
    cacheKey method path p1 = cacheKey method path p2 ∧
    ∀ (V : Type) (c : TTLCache V) (now : Rat),
      c.get now (cacheKey method path p1) = c.get now (cacheKey method path p2) := by
  have hk : cacheKey method path p1 = cacheKey method path p2 := by
    dsimp only [cacheKey]
    rw [sortedItems_perm_eq p1 p2 hperm hnodup]
  exact ⟨hk, fun V c now => by rw [hk]⟩

/-- Witness for C5 on the spec's own example pair. -/
theorem cacheKey_param_order_irrelevant_witness :
    cacheKey "GET" "/literature" [("b", .int 2), ("a", .int 1)]
      = cacheKey "GET" "/literature" [("a", .int 1), ("b", .int 2)] := by
  exact (cacheKey_param_order_irrelevant "GET" "/literature"
    [("b", .int 2), ("a", .int 1)] [("a", .int 1), ("b", .int 2)]
    (List.Perm.swap _ _ _) (by decide)).1

theorem limiterRun_head_bound {α : Type} (s : ClientState α) (arrivals : List Rat)
    (b : Rat) (hb : b ∈ ((limiterRun s arrivals).1).head?) :
    s.lastRequestTime + s.rateInterval ≤ b := by
  cases arrivals with
  | nil => simp [limiterRun] at hb
  | cons t rest =>
      dsimp only [limiterRun] at hb
      simp only [List.head?_cons, Option.mem_def, Option.some.injEq] at hb
      rw [← hb]
      exact waitForRateLimit_start_ge s t

/-- Claim C3: across any sequence of critical-section entries (one caller
at a time under the lock, entry times arbitrary), consecutive request
start times are spaced by at least `rateInterval`; the first start is no
sooner than `rateInterval` after the previously recorded request time; and
the constructor sets `rateInterval = 1 / requests_per_second`. -/
theorem rate_limiter_spacing {α : Type} (s : ClientState α) (arrivals : List Rat)
    (rps ttl : Rat) (maxSize : Nat) :
    ((limiterRun s arrivals).1).Chain' (fun a b => a + s.rateInterval ≤ b) ∧
    (∀ b ∈ ((limiterRun s arrivals).1).head?,
      s.lastRequestTime + s.rateInterval ≤ b) ∧
    (ClientState.init α rps ttl maxSize).rateInterval = 1 / rps := by
  refine ⟨?_, fun b hb => limiterRun_head_bound s arrivals b hb, rfl⟩
  induction arrivals generalizing s with
  | nil => exact List.chain'_nil
  | cons t rest ih =>
      have hints : ((waitForRateLimit s t).2.1).rateInterval = s.rateInterval := by
        rw [waitForRateLimit_state]
      have hlast : ((waitForRateLimit s t).2.1).lastRequestTime
          = (waitForRateLimit s t).1 := by
        rw [waitForRateLimit_state]
      have ihchain := ih ((waitForRateLimit s t).2.1)
      rw [hints] at ihchain
      dsimp only [limiterRun]
      refine List.Chain'.cons' ihchain ?_
      intro b hb
      have hfirst := limiterRun_head_bound ((waitForRateLimit s t).2.1) rest b hb
      rw [hints, hlast] at hfirst
      exact hfirst

theorem lookup_map_self_none {V : Type} (l : List String)
    (g : String → String × CacheEntry V) (hg : ∀ x, (g x).1 = x)
    (k : String) (h : k ∉ l) : (l.map g).lookup k = none := by
  induction l with
  | nil => rfl
  | cons x rest ih =>
      have hx : ¬k = x := fun he => h (he ▸ List.mem_cons_self x rest)
      have hbeq : (k == (g x).1) = false := by
        rw [hg x]
        exact beq_eq_false_iff_ne.mpr hx
      simp only [List.map_cons, List.lookup, hbeq]
      exact ih (fun hm => h (List.mem_cons_of_mem x hm))

theorem lookup_map_self_mem {V : Type} (l : List String)
    (g : String → String × CacheEntry V) (hg : ∀ x, (g x).1 = x)
    (k : String) (h : k ∈ l) : (l.map g).lookup k = some (g k).2 := by
  induction l with
  | nil => exact absurd h (List.not_mem_nil k)
  | cons x rest ih =>
      by_cases hx : k = x
      · have hbeq : (k == (g x).1) = true := by
          rw [hg x]
          exact beq_iff_eq.mpr hx
        simp only [List.map_cons, List.lookup, hbeq]
        rw [hx]
      · have hbeq : (k == (g x).1) = false := by
          rw [hg x]
          exact beq_eq_false_iff_ne.mpr hx
        simp only [List.map_cons, List.lookup, hbeq]
        exact ih (List.mem_of_ne_of_mem hx h)

theorem fillCache_ttl {V : Type} (c : TTLCache V) (now : Rat) (f : String → V)
    (ks : List String) : (fillCache c now f ks).ttlSeconds = c.ttlSeconds := by
  induction ks generalizing c with
  | nil => rfl
  | cons k rest ih =>
      have hset : (c.set now k (f k)).ttlSeconds = c.ttlSeconds := by
        dsimp only [TTLCache.set]
        split
        · rfl
        · rfl
      exact (ih (c.set now k (f k))).trans hset

theorem fillCache_maxSize {V : Type} (c : TTLCache V) (now : Rat) (f : String → V)
    (ks : List String) : (fillCache c now f ks).maxSize = c.maxSize := by
  induction ks generalizing c with
  | nil => rfl
  | cons k rest ih =>
      have hset : (c.set now k (f k)).maxSize = c.maxSize := by
        dsimp only [TTLCache.set]
        split
        · rfl
        · rfl
      exact (ih (c.set now k (f k))).trans hset

theorem fillCache_append_singleton {V : Type} (c : TTLCache V) (now : Rat)
    (f : String → V) (ks : List String) (k : String) :
    fillCache c now f (ks ++ [k]) = (fillCache c now f ks).set now k (f k) := by
  dsimp only [fillCache]
  rw [List.foldl_append]
  rfl

/-- Characterization of filling an empty cache of capacity `N ≥ 1` with
distinct keys: what remains is exactly the last `min (length, N)` keys, in
insertion order, each expiring at `now + ttl`. -/
theorem fillCache_entries {V : Type} (N : Nat) (hN : 1 ≤ N) (ttl now : Rat)
    (f : String → V) (ks : List String) (h : ks.Nodup) :
    (fillCache ⟨ttl, N, []⟩ now f ks).entries
      = (ks.drop (ks.length - N)).map (fun k => (k, ⟨f k, now + ttl⟩)) := by
  induction ks using List.reverseRecOn with
  | nil => simp [fillCache]
  | append_singleton ks k ih =>
      have hks : ks.Nodup := h.of_append_left
      have hkn : k ∉ ks := by
        have := List.disjoint_of_nodup_append h
        intro hm
        exact this hm (List.mem_singleton_self k)
      have hchar := ih hks
      rw [fillCache_append_singleton]
      have hg : ∀ x, ((fun k2 => (k2, (⟨f k2, now + ttl⟩ : CacheEntry V))) x).1 = x :=
        fun x => rfl
      have hlookup : ((fillCache (⟨ttl, N, []⟩ : TTLCache V) now f ks).entries.lookup k)
          = none := by
        rw [hchar]
        exact lookup_map_self_none _ _ hg k
          (fun hm => hkn (List.mem_of_mem_drop hm))
      have httlf := fillCache_ttl (⟨ttl, N, []⟩ : TTLCache V) now f ks
      have hmaxf := fillCache_maxSize (⟨ttl, N, []⟩ : TTLCache V) now f ks
      dsimp only [TTLCache.set]
      rw [hlookup]
      simp only [Option.isSome_none, Bool.false_eq_true, if_false]
      rw [hchar, httlf, hmaxf]
      simp only [List.length_map, List.length_drop]
      by_cases hm : N ≤ ks.length
      · have hiff : ks.length - (ks.length - N) + 1 > N := by omega
        rw [if_pos hiff]
        have hd1 : ks.length - (ks.length - N) + 1 - N = 1 := by omega
        rw [hd1]
        rw [← List.map_drop, List.drop_drop]
        have hd2 : ks.length - N + 1 = (ks ++ [k]).length - N := by
          simp only [List.length_append, List.length_singleton]
          omega
        have hd3 : (ks ++ [k]).drop ((ks ++ [k]).length - N)
            = ks.drop ((ks ++ [k]).length - N) ++ [k] := by
          apply List.drop_append_of_le_length
          simp only [List.length_append, List.length_singleton]
          omega
        rw [hd3, List.map_append, ← hd2]
        rfl
      · have hiff : ¬(ks.length - (ks.length - N) + 1 > N) := by omega
        rw [if_neg hiff]
        have hz1 : ks.length - N = 0 := by omega
        have hz2 : (ks ++ [k]).length - N = 0 := by
          simp only [List.length_append, List.length_singleton]
          omega
        rw [hz1] at hchar ⊢
        rw [hz2]
        simp only [List.drop_zero]
        rw [List.map_append]
        rfl

/-- Claim C8: with `max_size = N` (spec-modelled TTL cache), inserting
`N + 1` distinct keys with no expiry in between makes exactly the
first-inserted key unretrievable while the other `N` keys remain
retrievable — insertion-order eviction, not access recency or TTL. -/
theorem cache_eviction_insertion_order {V : Type} (N : Nat) (k0 : String)
    (rest : List String) (ttl now : Rat) (f : String → V)
    (hN : 1 ≤ N) (hnodup : (k0 :: rest).Nodup) (hlen : rest.length = N)
    (httl : 0 < ttl) :
    (fillCache (⟨ttl, N, []⟩ : TTLCache V) now f (k0 :: rest)).get now k0 = none ∧
    ∀ k ∈ rest,
      (fillCache (⟨ttl, N, []⟩ : TTLCache V) now f (k0 :: rest)).get now k
        = some (f k) := by
  have hchar := fillCache_entries N hN ttl now f (k0 :: rest) hnodup
  have hd : (k0 :: rest).length - N = 1 := by
    simp only [List.length_cons, hlen]
    omega
  rw [hd] at hchar
  have hdrop : (k0 :: rest).drop 1 = rest := rfl
  rw [hdrop] at hchar
  have hg : ∀ x, ((fun k2 => (k2, (⟨f k2, now + ttl⟩ : CacheEntry V))) x).1 = x :=
    fun x => rfl
  have hk0 : k0 ∉ rest := (List.nodup_cons.mp hnodup).1
  constructor
  · dsimp only [TTLCache.get]
    rw [hchar, lookup_map_self_none _ _ hg k0 hk0]
  · intro k hk
    dsimp only [TTLCache.get]
    rw [hchar, lookup_map_self_mem _ _ hg k hk]
    dsimp only
    rw [if_pos (by linarith : now < now + ttl)]

/-- Witness for C8: capacity 2, keys a, b, c inserted at time 0 with
TTL 1 — a is evicted, b and c retrievable. -/
theorem cache_eviction_insertion_order_witness :
    (fillCache (⟨1, 2, []⟩ : TTLCache Nat) 0 (fun _ => 5) ["a", "b", "c"]).get 0 "a"
        = none ∧
    ∀ k ∈ ["b", "c"],
      (fillCache (⟨1, 2, []⟩ : TTLCache Nat) 0 (fun _ => 5) ["a", "b", "c"]).get 0 k
        = some 5 := by
  exact cache_eviction_insertion_order 2 "a" ["b", "c"] 1 0 (fun _ => 5)
    (by decide) (by decide) rfl (by decide)

end InspireMCP
